import Mathlib

/-!
Verification of the appstats core (types.go): time bucketing and storage
keys, the stack-trace reconstructor, and the ordering utilities.

Strings are modelled as Lean `String` / `List Char`; Go's byte-indexed
operations coincide with the character-indexed model on the ASCII inputs
considered here, and line splitting on the single byte `\n` is structurally
identical in both views.  Machine integers (`int`, `int64`,
`time.Duration`) are modelled as `Int` with explicit clamping where the Go
code clamps; nanosecond-of-second values are `Nat`.  A Go runtime panic
(slice bounds out of range) is modelled by `Option`: `none` is a panic.
-/

/-- The key-format constants of types.go: `keyPrefix = "__appstats__:"`,
`distance = 100`, `modulus = 1000`.  The namespace tag is named `keyNs`
here because of lexical constraints on Lean identifiers. -/
def keyNs : String := "__appstats__:"

def distance : Nat := 100

def modulus : Nat := 1000

/-- `roundTime` from types.go: `(i / 1000 / distance) % modulus * distance`.
The argument is a nanosecond-of-second value, hence nonnegative, so Go's
truncated `int` division agrees with `Nat` division. -/
def roundTime (i : Nat) : Nat :=
  (i / 1000 / distance) % modulus * distance

/-- Go's `fmt.Sprintf` verb `%06d` for a nonnegative argument: the decimal
digits, left-padded with zeros to width 6 (wider numbers print in full). -/
def pad6 (n : Nat) : String :=
  String.mk (List.replicate (6 - (toString n).length) '0') ++ toString n

/-- A wall-clock instant, modelling `time.Time`: seconds plus a
nanosecond-of-second offset, which `time.Time` keeps in `[0, 1e9)`. -/
structure GoTime where
  sec : Int
  nsec : Nat
  nsec_lt : nsec < 1000000000

/-- `time.Time.Nanosecond()`: the nanosecond offset within the second. -/
def GoTime.nanosecond (t : GoTime) : Nat := t.nsec

/-- The instant as a total nanosecond count (unbounded). -/
def GoTime.toNanos (t : GoTime) : Int := t.sec * 1000000000 + (t.nsec : Int)

/-- The largest `int64` value, `2^63 - 1`. -/
def maxInt64 : Int := 9223372036854775807

/-- The smallest `int64` value, `-2^63`. -/
def minInt64 : Int := -9223372036854775808

/-- `time.Time.Sub`: the exact difference when it fits in an `int64` count
of nanoseconds, otherwise the saturated extreme (Go returns `minDuration` /
`maxDuration` on under/overflow, detected via its `Add`/`Equal` check). -/
def GoTime.sub (t u : GoTime) : Int :=
  if t.toNanos - u.toNanos < minInt64 then minInt64
  else if t.toNanos - u.toNanos > maxInt64 then maxInt64
  else t.toNanos - u.toNanos

/-- `t` is strictly earlier than `u` (Go's `t.Before(u)`). -/
def GoTime.before (t u : GoTime) : Prop := t.toNanos < u.toNanos

/-- `frame` from types.go: one reconstructed stack entry. -/
structure frame where
  Location : String
  Call : String
  Lineno : Int
deriving DecidableEq

/-- `stack` from types.go (`[]*frame`, modelled by value). -/
def stack := List frame

/-- `rpcStat` from types.go: one remote call's record.  `time.Duration`
fields are `Int` nanosecond counts, `int64` cost is `Int`. -/
structure rpcStat where
  Service : String
  Method : String
  Start : GoTime
  Offset : Int
  Duration : Int
  StackData : String
  In : String
  Out : String
  Cost : Int

/-- `rpcStat.Name`: `Service + "." + Method`. -/
def rpcStat.Name (r : rpcStat) : String := r.Service ++ "." ++ r.Method

def rpcStat.Request (r : rpcStat) : String := r.In

def rpcStat.Response (r : rpcStat) : String := r.Out

/-- `requestStats` from types.go (the lock and wait group, pure
synchronization state, are not part of the value model). -/
structure requestStats where
  User : String
  Admin : Bool
  Method : String
  Path : String
  Query : String
  Status : Int
  Cost : Int
  Start : GoTime
  Duration : Int
  RPCStats : List rpcStat

/-- `stats_part` from types.go: an alias of `requestStats`. -/
def stats_part := requestStats

/-- `stats_full` from types.go: the full record carries the HTTP header set
(`http.Header`, a map from names to value lists) and the stats record. -/
structure stats_full where
  Header : List (String × List String)
  Stats : requestStats

/-- `requestStats.PartKey`: `fmt.Sprintf(keyPart, roundTime(r.Start.Nanosecond()))`
with `keyPart = keyPrefix + "%06d:part"`. -/
def requestStats.PartKey (r : requestStats) : String :=
  keyNs ++ pad6 (roundTime r.Start.nanosecond) ++ ":part"

/-- `requestStats.FullKey`: `fmt.Sprintf(keyFull, roundTime(r.Start.Nanosecond()))`
with `keyFull = keyPrefix + "%06d:full"`. -/
def requestStats.FullKey (r : requestStats) : String :=
  keyNs ++ pad6 (roundTime r.Start.nanosecond) ++ ":full"

/-- `strings.Split(s, "\n")`: the pieces between newline separators.
`splitNl [] = [[]]`, matching Go's `Split("", "\n") = [""]`. -/
def splitNl : List Char → List (List Char)
  | [] => [[]]
  | c :: rest =>
    if c = '\n' then [] :: splitNl rest
    else
      match splitNl rest with
      | h :: t => (c :: h) :: t
      | [] => [[c]]

/-- `strings.LastIndex(l, c)` for a one-character needle: the index of the
last occurrence, `none` for Go's `-1`. -/
def lastIndex (l : List Char) (c : Char) : Option Nat :=
  match l with
  | [] => none
  | a :: rest =>
    match lastIndex rest c with
    | some i => some (i + 1)
    | none => if a = c then some 0 else none

/-- Go string slicing `s[lo:hi]`: defined when `lo ≤ hi ≤ len(s)`,
otherwise a runtime panic (`none`). -/
def goSlice (l : List Char) (lo hi : Nat) : Option (List Char) :=
  if lo ≤ hi ∧ hi ≤ l.length then some ((l.drop lo).take (hi - lo)) else none

/-- The outcome of `strconv.ParseUint`'s base-10 digit loop: the loop stops
at the first invalid character with `ErrSyntax` and value `0` (`badChar`),
or — before ever reaching a later character — at the first digit that would
push the `uint64` accumulator past `2^64 - 1`, with `ErrRange` and the
clamped value `2^64 - 1` (`overflow`); otherwise it accumulates the
numeral's value. -/
inductive ParseUintResult where
  | badChar
  | overflow
  | value (n : Nat)
deriving DecidableEq

/-- `strconv.ParseUint`'s base-10 digit loop in unbounded arithmetic.  Each
character is validated first (Go returns `ErrSyntax` on a non-digit — for
base 10 a letter's digit value is `≥ base`, every other character hits the
switch default); only then does Go check overflow (`n >= cutoff` before the
multiply, `n1 < n || n1 > maxVal` after the add, together equivalent to
`n * 10 + d > 2^64 - 1`) and return `maxVal` with `ErrRange` without ever
reading the remaining characters. -/
def parseUintLoop : List Char → Nat → ParseUintResult
  | [], n => .value n
  | c :: rest, n =>
    if c.isDigit then
      if 18446744073709551615 < n * 10 + (c.toNat - '0'.toNat) then .overflow
      else parseUintLoop rest (n * 10 + (c.toNat - '0'.toNat))
    else .badChar

/-- `strconv.ParseUint(s, 10, 64)` (as called for `Atoi` via `ParseInt`):
the empty string is a syntax error, otherwise the digit loop's outcome. -/
def goParseUint (l : List Char) : ParseUintResult :=
  match l with
  | [] => .badChar
  | _ :: _ => parseUintLoop l 0

/-- `strconv.ParseInt`'s combination of the unsigned scan with the sign,
keeping the returned value and discarding the error: a syntax error yields
`0`; a `uint64` overflow leaves `un = 2^64 - 1`, which the `int64` range
checks then clamp to the extreme of the sign; a scanned value `un` is
clamped to `maxInt64` when `un ≥ 2^63` (positive) or to `minInt64` when
`un > 2^63` (negative), else kept with its sign. -/
def goAtoiSigned (neg : Bool) (ds : List Char) : Int :=
  match goParseUint ds with
  | .badChar => 0
  | .overflow => if neg then minInt64 else maxInt64
  | .value n =>
    if neg then
      if 9223372036854775808 < n then minInt64 else -(n : Int)
    else
      if 9223372036854775807 < n then maxInt64 else (n : Int)

/-- The value half of `strconv.Atoi(s)` with the error discarded, as in
`f.Lineno, _ = strconv.Atoi(...)`: an optional sign, then the base-10 scan
of `goAtoiSigned`.  (`Atoi`'s short-string fast path computes the same
value: below 19 digits no overflow is reachable and a non-digit yields `0`
there as well.) -/
def goAtoi (s : List Char) : Int :=
  match s with
  | [] => 0
  | c :: rest =>
    if c = '-' then goAtoiSigned true rest
    else if c = '+' then goAtoiSigned false rest
    else goAtoiSigned false (c :: rest)

/-- Whether `strconv.Atoi(s)` reports `ErrSyntax`: the scan reaches an
invalid character (or runs on an empty numeral) before the accumulator
overflows.  An overflow reached first is `ErrRange` instead, even when an
invalid character follows later in the string. -/
def atoiSyntaxErr (s : List Char) : Bool :=
  match s with
  | [] => true
  | c :: rest =>
    if c = '-' then decide (goParseUint rest = ParseUintResult.badChar)
    else if c = '+' then decide (goParseUint rest = ParseUintResult.badChar)
    else decide (goParseUint (c :: rest) = ParseUintResult.badChar)

/-- Whether the signed result of the scan carries a non-nil error: a syntax
failure, a `uint64` overflow, or a scanned value outside the `int64` range
of its sign. -/
def goAtoiErrSigned (neg : Bool) (ds : List Char) : Bool :=
  match goParseUint ds with
  | .badChar => true
  | .overflow => true
  | .value n =>
    if neg then decide (9223372036854775808 < n)
    else decide (9223372036854775807 < n)

/-- Whether `strconv.Atoi(s)` returns a non-nil error (`ErrSyntax` or
`ErrRange`). -/
def atoiHasError (s : List Char) : Bool :=
  match s with
  | [] => true
  | c :: rest =>
    if c = '-' then goAtoiErrSigned true rest
    else if c = '+' then goAtoiErrSigned false rest
    else goAtoiErrSigned false (c :: rest)

/-- The frame loop of `rpcStat.Stack` (types.go lines 118–133), two lines
per iteration: the first line is the `Call`; on the second line `idx` is
the last space, `cidx` the last colon; if either is missing the pair is
skipped; otherwise `Location = lines[i][1:cidx]` and
`Lineno = Atoi(lines[i][cidx+1:idx])` (error discarded), and the frame is
appended.  Either slice panics (`none`) when its bounds are inverted. -/
def parseFrames : List (List Char) → Option (List frame)
  | a :: b :: rest =>
    match lastIndex b ' ', lastIndex b ':' with
    | some idx, some cidx =>
      match goSlice b 1 cidx, goSlice b (cidx + 1) idx with
      | some loc, some num =>
        match parseFrames rest with
        | some fs => some ({ Location := String.mk loc, Call := String.mk a, Lineno := goAtoi num } :: fs)
        | none => none
      | _, _ => none
    | _, _ => parseFrames rest
  | _ => some []

/-- `rpcStat.Stack` from types.go: split on newlines; fewer than 7 lines or
an odd count yields the empty stack; otherwise drop the header line and the
four internal frames and parse the remaining lines in pairs.  `none`
models a Go runtime panic inside the loop. -/
def rpcStat.Stack (r : rpcStat) : Option (List frame) :=
  if (splitNl r.StackData.data).length < 7 ∨ (splitNl r.StackData.data).length % 2 ≠ 0
  then some []
  else parseFrames ((splitNl r.StackData.data).drop 5)

/-- `allrequestStats` (`[]*requestStats`), modelled by value. -/
def allrequestStats := List requestStats

/-- `allrequestStats.Less(i, j)`: `s[i].Start.Sub(s[j].Start) < 0`. -/
def allrequestStats.Less (s : List requestStats) (i j : Fin s.length) : Bool :=
  decide (GoTime.sub (s.get i).Start (s.get j).Start < 0)

/-- `statByName` from types.go; recursive through `SubStats`, so an
inductive type with field projections. -/
inductive statByName where
  | mk (Name : String) (Count : Int) (Cost : Int) (SubStats : List statByName)
      (Requests : Int) (RecentReqs : List Int)
      (RequestStats : Option requestStats) (Duration : Int)

def statByName.Count : statByName → Int
  | .mk _ c _ _ _ _ _ _ => c

def statByName.Name : statByName → String
  | .mk n _ _ _ _ _ _ _ => n

/-- `statsByName` (`[]*statByName`), modelled by value. -/
def statsByName := List statByName

/-- `statsByName.Less(i, j)`: `s[i].Count < s[j].Count`. -/
def statsByName.Less (s : List statByName) (i j : Fin s.length) : Bool :=
  decide ((s.get i).Count < (s.get j).Count)

/-- `sort.Interface`: a length and a comparator (the mutating `Swap` is
irrelevant to the comparator claims and omitted from the value model). -/
structure SortInterface where
  Len : Nat
  Less : Nat → Nat → Bool

/-- `reverse` from types.go: a wrapper embedding a `sort.Interface`. -/
structure reverse where
  Interface : SortInterface

/-- `reverse.Less(i, j)`: `r.Interface.Less(j, i)`. -/
def reverse.Less (r : reverse) (i j : Nat) : Bool := r.Interface.Less j i

/-- `skey` from types.go: the composite aggregation grouping key. -/
structure skey where
  a : String
  b : String

/-- `cVal` from types.go: a count/cost accumulator cell. -/
structure cVal where
  count : Int
  cost : Int

/-- A call record whose only distinguishing content is its raw stack text,
used to evaluate `rpcStat.Stack` on concrete traces. -/
def mkRpc (s : String) : rpcStat :=
  { Service := "s", Method := "m", Start := ⟨0, 0, by decide⟩, Offset := 0,
    Duration := 0, StackData := s, In := "", Out := "", Cost := 0 }

theorem lastIndex_lt_length (l : List Char) (c : Char) (i : Nat)
    (h : lastIndex l c = some i) : i < l.length := by
  induction l generalizing i with
  | nil => simp [lastIndex] at h
  | cons a rest ih =>
    unfold lastIndex at h
    cases hr : lastIndex rest c with
    | some k =>
      rw [hr] at h
      cases h
      exact Nat.succ_lt_succ (ih k hr)
    | none =>
      rw [hr] at h
      by_cases ha : a = c
      · rw [if_pos ha] at h
        cases h
        exact Nat.succ_pos _
      · rw [if_neg ha] at h
        cases h

theorem goAtoiSigned_zero_of_badChar (neg : Bool) (ds : List Char)
    (h : goParseUint ds = ParseUintResult.badChar) : goAtoiSigned neg ds = 0 := by
  unfold goAtoiSigned
  rw [h]

theorem goAtoi_zero_of_bad_numeral (s : List Char) (h : atoiSyntaxErr s = true) :
    goAtoi s = 0 := by
  cases s with
  | nil => rfl
  | cons c rest =>
    simp only [goAtoi]
    simp only [atoiSyntaxErr] at h
    by_cases h1 : c = '-'
    · rw [if_pos h1] at h ⊢
      exact goAtoiSigned_zero_of_badChar _ _ (of_decide_eq_true h)
    · rw [if_neg h1] at h ⊢
      by_cases h2 : c = '+'
      · rw [if_pos h2] at h ⊢
        exact goAtoiSigned_zero_of_badChar _ _ (of_decide_eq_true h)
      · rw [if_neg h2] at h ⊢
        exact goAtoiSigned_zero_of_badChar _ _ (of_decide_eq_true h)

/-- A request record with the given start time, used to instantiate the
key theorems at concrete instants. -/
def reqAt (sec : Int) (ns : Nat) (h : ns < 1000000000) : requestStats :=
  { User := "u", Admin := false, Method := "GET", Path := "/p", Query := "q",
    Status := 200, Cost := 3, Start := ⟨sec, ns, h⟩, Duration := 9, RPCStats := [] }

/-- C3: for every nanosecond-of-second value n in [0, 10^9), roundTime n lies
in [0, modulus * distance) = [0, 100000), is an exact multiple of
distance = 100, and is periodic with period modulus * distance * 1000 = 10^8
nanoseconds (the microsecond period converted to nanoseconds). -/
theorem roundTime_bucket_props (n : Nat) (h : n < 1000000000) :
    roundTime n < modulus * distance ∧ roundTime n % distance = 0 ∧
    roundTime n = roundTime (n + modulus * distance * 1000) := by
  unfold roundTime modulus distance
  refine ⟨by omega, by omega, by omega⟩

/-- C3 witness: the bucket properties at n = 123456789. -/
theorem roundTime_bucket_props_witness :
    roundTime 123456789 < modulus * distance ∧
    roundTime 123456789 % distance = 0 ∧
    roundTime 123456789 = roundTime (123456789 + modulus * distance * 1000) :=
  roundTime_bucket_props 123456789 (by norm_num)

/-- C4: PartKey and FullKey of the same record embed the same bucket number —
the namespace prefix, the 6-digit zero-padded bucket value, and the literal
suffix ":part" or ":full" — and bucket value 400 yields exactly
"__appstats__:000400:part" and "__appstats__:000400:full". -/
theorem partKey_fullKey_same_bucket (r : requestStats) :
    (∃ t, t = roundTime r.Start.nanosecond ∧
      r.PartKey = keyNs ++ pad6 t ++ ":part" ∧
      r.FullKey = keyNs ++ pad6 t ++ ":full") ∧
    (roundTime r.Start.nanosecond = 400 →
      r.PartKey = "__appstats__:000400:part" ∧
      r.FullKey = "__appstats__:000400:full") := by
  constructor
  · exact ⟨_, rfl, rfl, rfl⟩
  · intro h
    unfold requestStats.PartKey requestStats.FullKey
    rw [h]
    exact ⟨by decide, by decide⟩

/-- C4 witness: a start time with nanosecond offset 400000 has bucket 400 and
the two example keys. -/
theorem partKey_fullKey_same_bucket_witness :
    (reqAt 77 400000 (by decide)).PartKey = "__appstats__:000400:part" ∧
    (reqAt 77 400000 (by decide)).FullKey = "__appstats__:000400:full" :=
  (partKey_fullKey_same_bucket (reqAt 77 400000 (by decide))).2 (by decide)

/-- C5: a raw trace splitting into fewer than 7 lines, or into an odd number
of lines, yields the empty stack. -/
theorem stack_short_or_odd_empty (r : rpcStat)
    (h : (splitNl r.StackData.data).length < 7 ∨
         (splitNl r.StackData.data).length % 2 = 1) :
    r.Stack = some [] := by
  have h2 : (splitNl r.StackData.data).length < 7 ∨
      (splitNl r.StackData.data).length % 2 ≠ 0 := by omega
  unfold rpcStat.Stack
  rw [if_pos h2]

/-- C5 witness: a two-line trace yields the empty stack. -/
theorem stack_short_or_odd_empty_witness :
    (mkRpc "a\nb").Stack = some [] :=
  stack_short_or_odd_empty (mkRpc "a\nb") (by decide)

/-- C6: the storage keys depend only on the nanosecond-of-second component of
the start time: equal Nanosecond() values give identical PartKeys and
identical FullKeys, whatever the rest of the two records. -/
theorem keys_depend_only_on_nanosecond (r1 r2 : requestStats)
    (h : r1.Start.nanosecond = r2.Start.nanosecond) :
    r1.PartKey = r2.PartKey ∧ r1.FullKey = r2.FullKey := by
  unfold requestStats.PartKey requestStats.FullKey
  rw [h]
  exact ⟨rfl, rfl⟩

/-- C6 witness: two records a day apart in seconds but with the same
sub-second offset share both keys. -/
theorem keys_depend_only_on_nanosecond_witness :
    (reqAt 1700000000 123456789 (by decide)).PartKey
      = (reqAt 1700086400 123456789 (by decide)).PartKey ∧
    (reqAt 1700000000 123456789 (by decide)).FullKey
      = (reqAt 1700086400 123456789 (by decide)).FullKey :=
  keys_depend_only_on_nanosecond _ _ rfl

/-- C7: the chronological comparator on allrequestStats is true exactly when
the i-th record's start time is strictly earlier than the j-th's, the
comparison being the difference s[i].Start.Sub(s[j].Start) < 0. -/
theorem allrequestStats_less_iff_before (s : List requestStats)
    (i j : Fin s.length) :
    allrequestStats.Less s i j = true ↔
      GoTime.before (s.get i).Start (s.get j).Start := by
  unfold allrequestStats.Less GoTime.sub GoTime.before minInt64 maxInt64
  rw [decide_eq_true_eq]
  split_ifs <;> omega

/-- C8: the count comparator on statsByName is true exactly when the i-th
node's count is less than the j-th's. -/
theorem statsByName_less_iff_count_lt (s : List statByName)
    (i j : Fin s.length) :
    statsByName.Less s i j = true ↔ (s.get i).Count < (s.get j).Count := by
  unfold statsByName.Less
  exact decide_eq_true_iff

/-- C9: the reverse wrapper inverts any comparator by swapping its arguments:
reverse{s}.Less(i, j) = s.Less(j, i); hence a comparator ascending in a
measure f becomes the corresponding descending comparator. -/
theorem reverse_less_swaps (s : SortInterface) (i j : Nat) (f : Nat → Int) :
    (reverse.mk s).Less i j = s.Less j i ∧
    ((∀ k l : Nat, s.Less k l = true ↔ f k < f l) →
      ((reverse.mk s).Less i j = true ↔ f j < f i)) := by
  refine ⟨rfl, fun hasc => ?_⟩
  unfold reverse.Less
  exact hasc j i

/-- C9 witness: the wrapper applied to the ascending comparator of the
identity measure on three elements, at indices 1 and 2. -/
theorem reverse_less_swaps_witness :
    (reverse.mk ⟨3, fun k l => decide ((k : Int) < (l : Int))⟩).Less 1 2
      = SortInterface.Less ⟨3, fun k l => decide ((k : Int) < (l : Int))⟩ 2 1 ∧
    ((reverse.mk ⟨3, fun k l => decide ((k : Int) < (l : Int))⟩).Less 1 2 = true ↔
      ((2 : Nat) : Int) < ((1 : Nat) : Int)) := by
  have h := reverse_less_swaps ⟨3, fun k l => decide ((k : Int) < (l : Int))⟩ 1 2
    (fun n => (n : Int))
  exact ⟨h.1, h.2 (fun k l => by simp)⟩

/-- C1 counterexample: a trace of exactly 9 lines — 1 header, 4 internal
lines, the frame pair whose second line is "\tfoo/bar.go:42 +0x1a", and two
further lines to reach 9 — has an odd line count, so Stack() returns the
empty stack, not the single frame the claim requires. -/
theorem stack_nine_lines_empty :
    (mkRpc "goroutine 1 [running]:\na\nb\nc\nd\ncall()\n\tfoo/bar.go:42 +0x1a\nx\ny").Stack
      = some [] ∧
    ¬ (mkRpc "goroutine 1 [running]:\na\nb\nc\nd\ncall()\n\tfoo/bar.go:42 +0x1a\nx\ny").Stack
      = some [{ Location := "foo/bar.go", Call := "call()", Lineno := 42 }] := by
  exact ⟨by decide, by decide⟩

/-- C1 (amended): a well-formed raw trace of exactly 8 lines — 1 header line,
4 internal frame lines, 2 lines forming one frame pair, and the empty line
after the trace's final newline — yields exactly 1 Frame; with the pair's
second line "\tfoo/bar.go:42 +0x1a" the Frame has Location "foo/bar.go" and
Lineno 42. -/
theorem stack_eight_line_trace_one_frame :
    (mkRpc "goroutine 1 [running]:\na\nb\nc\nd\ncall()\n\tfoo/bar.go:42 +0x1a\n").Stack
      = some [{ Location := "foo/bar.go", Call := "call()", Lineno := 42 }] := by
  decide

/-- C2: Stack() is not total — on an 8-line trace whose frame pair's second
line is "ab c:1" (last space at byte 2, before the last colon at byte 4) the
Go code evaluates lines[i][cidx+1:idx] = "ab c:1"[5:2], whose inverted bounds
panic at runtime (modelled by none), contradicting the never-fails claim. -/
theorem stack_panics_on_inverted_bounds :
    (mkRpc "h\ni1\ni2\ni3\ni4\ncall\nab c:1\nx").Stack = none := by decide

/-- C10 counterexample: the substring "99999999999999999999x" is not a valid
decimal integer, and strconv.Atoi fails on it — but with ErrRange, not
ErrSyntax: the uint64 accumulator overflows at the 20th digit, before the
scan ever reaches the 'x', so Atoi returns the clamped int64 maximum and the
appended frame's Lineno is 9223372036854775807, not 0. -/
theorem stack_range_numeral_lineno_not_zero :
    atoiHasError "99999999999999999999x".data = true ∧
    (mkRpc "h\ni1\ni2\ni3\ni4\ncall\n\tx.go:99999999999999999999x +1\n").Stack
      = some [{ Location := "x.go", Call := "call", Lineno := 9223372036854775807 }] ∧
    ¬ (mkRpc "h\ni1\ni2\ni3\ni4\ncall\n\tx.go:99999999999999999999x +1\n").Stack
      = some [{ Location := "x.go", Call := "call", Lineno := 0 }] := by
  exact ⟨by decide, by decide, by decide⟩

/-- C10 (amended): when the pair's second line has its last space at idx and
its last colon at cidx with 1 ≤ cidx and cidx + 1 ≤ idx (both slices in
bounds) and strconv.Atoi reports a syntax error on the substring between the
last colon and the last space — its left-to-right scan reaches an invalid
character (or an empty numeral or bare sign) before the uint64 accumulator
overflows — the frame is still appended, the Atoi error discarded, with
Lineno = 0. -/
theorem parseFrames_bad_numeral_lineno_zero (a b : List Char)
    (rest : List (List Char)) (idx cidx : Nat)
    (hidx : lastIndex b ' ' = some idx) (hcidx : lastIndex b ':' = some cidx)
    (h1 : 1 ≤ cidx) (h2 : cidx + 1 ≤ idx)
    (hbad : atoiSyntaxErr ((b.drop (cidx + 1)).take (idx - (cidx + 1))) = true) :
    parseFrames (a :: b :: rest) =
      (parseFrames rest).map
        (fun fs => { Location := String.mk ((b.drop 1).take (cidx - 1)),
                     Call := String.mk a, Lineno := 0 } :: fs) := by
  have hlb : idx < b.length := lastIndex_lt_length b ' ' idx hidx
  have hcb : cidx < b.length := lastIndex_lt_length b ':' cidx hcidx
  have e1 : goSlice b 1 cidx = some ((b.drop 1).take (cidx - 1)) := by
    unfold goSlice
    rw [if_pos ⟨h1, Nat.le_of_lt hcb⟩]
  have e2 : goSlice b (cidx + 1) idx
      = some ((b.drop (cidx + 1)).take (idx - (cidx + 1))) := by
    unfold goSlice
    rw [if_pos ⟨h2, Nat.le_of_lt hlb⟩]
  simp only [parseFrames]
  rw [hidx, hcidx]
  dsimp only
  rw [e1, e2]
  dsimp only
  rw [goAtoi_zero_of_bad_numeral _ hbad]
  cases parseFrames rest <;> rfl

/-- C10 amended-claim witness: one pair whose numeral substring "12ab" is
syntactically invalid parses to a single frame with Lineno 0. -/
theorem parseFrames_bad_numeral_lineno_zero_witness :
    parseFrames ["call()".data, "\tf.go:12ab +0x1".data] =
      some [{ Location := "f.go", Call := "call()", Lineno := 0 }] := by
  have h := parseFrames_bad_numeral_lineno_zero "call()".data "\tf.go:12ab +0x1".data
    [] 10 5 (by decide) (by decide) (by decide) (by decide) (by decide)
  rw [h]
  decide
